import Mathlib

/-!
Verification of the FoodStorageTool expiration/notification core.

This file shallowly embeds the Python code of the repository:
 - utils/helpers.py   : strip_emoji, format_date, parse_date
 - main.py            : check_expiring_items (the expiration scanner),
                        add_to_history (history-entry construction)
 - email_handler.py   : get_next_scheduled_time (the notification
                        scheduler) and the preference-filtering part of
                        send_expiration_notification

Dates are modelled as year/month/day triples; Python date arithmetic
(subtraction, weekday) is modelled through the proleptic-Gregorian
ordinal (date.toordinal), with ordinal 1 = 0001-01-01, a Monday.
Python datetime.strptime with the formats used by the code
(a full-width YYYY-MM-DD, and HH:MM) is modelled by fixed-width digit
parsers that perform the same calendar validation strptime does; in
particular the year directive matches exactly four digits.  strftime,
on the other hand, emits the year without zero padding on the
reference platform (CPython on glibc), which format_date models.
-/

set_option linter.unusedVariables false

namespace FoodStorage

/-! ## Digits and fixed-width numeric parsing -/

/-- One decimal digit character; models the zero-padded output of
Python strftime field formatting. -/
def digitChar (n : Nat) : Char := Char.ofNat (48 + n)

/-- Read a decimal digit character back to its value, failing on
non-digits; models strptime consuming one digit. -/
def charToDigit (c : Char) : Option Nat :=
  if 48 ≤ c.toNat ∧ c.toNat ≤ 57 then some (c.toNat - 48) else none

/-- Two fixed-width decimal digits. -/
def read2 (a b : Char) : Option Nat :=
  match charToDigit a, charToDigit b with
  | some x, some y => some (10 * x + y)
  | _, _ => none

/-- Four fixed-width decimal digits. -/
def read4 (a b c d : Char) : Option Nat :=
  match charToDigit a, charToDigit b, charToDigit c, charToDigit d with
  | some x, some y, some z, some w => some (1000 * x + 100 * y + 10 * z + w)
  | _, _, _, _ => none

/-! ## Calendar model (Python datetime.date) -/

/-- A calendar date as Python datetime.date stores it. -/
structure Date where
  year : Nat
  month : Nat
  day : Nat
deriving Repr, DecidableEq

/-- Gregorian leap-year rule, as used by Python's calendar. -/
def isLeap (y : Nat) : Bool :=
  y % 4 = 0 ∧ (y % 100 ≠ 0 ∨ y % 400 = 0)

/-- Days in a month of a given year. -/
def daysInMonth (y m : Nat) : Nat :=
  if m = 2 then (if isLeap y then 29 else 28)
  else if m = 4 ∨ m = 6 ∨ m = 9 ∨ m = 11 then 30
  else 31

/-- Days in the year before the first day of month m. -/
def daysBeforeMonth (y m : Nat) : Nat :=
  ((List.range (m - 1)).map (fun i => daysInMonth y (i + 1))).sum

/-- Validity invariant of Python datetime.date: the constructor (and
hence strptime) accepts exactly these triples. -/
def Date.Valid (d : Date) : Prop :=
  1 ≤ d.year ∧ d.year ≤ 9999 ∧ 1 ≤ d.month ∧ d.month ≤ 12 ∧
    1 ≤ d.day ∧ d.day ≤ daysInMonth d.year d.month

instance (d : Date) : Decidable d.Valid := by
  unfold Date.Valid; infer_instance

/-- Python date.toordinal: proleptic Gregorian ordinal,
0001-01-01 has ordinal 1.  Date subtraction in Python is subtraction
of ordinals; this is the number the scanner's days_remaining and the
scheduler's day stepping are computed from. -/
def toOrdinal (d : Date) : Nat :=
  365 * (d.year - 1) + (d.year - 1) / 4 - (d.year - 1) / 100 + (d.year - 1) / 400
    + daysBeforeMonth d.year d.month + d.day

/-- Python date.weekday on an ordinal: 0 = Monday .. 6 = Sunday.
Ordinal 1 (0001-01-01) is a Monday. -/
def weekdayOf (o : Nat) : Nat := (o + 6) % 7

/-- A point in time: a date (as its ordinal) plus a time of day in
seconds since midnight; models Python datetime for the scheduler. -/
structure DateTime where
  date : Nat
  tod : Nat
deriving Repr, DecidableEq

/-! ## format_date and parse_date (utils/helpers.py) -/

/-- The year field of strftime as glibc renders it: the decimal
digits of the year with no padding.  Years above 9999 never occur
(datetime.MAXYEAR is 9999), so the four branches cover the whole
domain. -/
def yearDigits (y : Nat) : List Char :=
  if y < 10 then [digitChar y]
  else if y < 100 then [digitChar (y / 10), digitChar (y % 10)]
  else if y < 1000 then
    [digitChar (y / 100), digitChar (y / 10 % 10), digitChar (y % 10)]
  else
    [digitChar (y / 1000), digitChar (y / 100 % 10), digitChar (y / 10 % 10),
     digitChar (y % 10)]

/-- utils/helpers.py format_date: date_obj.strftime of Y-m-d.  On the
reference platform (CPython on glibc) the year field is emitted
without zero padding, so years below 1000 yield fewer than four
digits, while the month and day fields are always two digits. -/
def format_date (d : Date) : String :=
  String.mk
    (yearDigits d.year ++
      ['-', digitChar (d.month / 10), digitChar (d.month % 10), '-',
       digitChar (d.day / 10), digitChar (d.day % 10)])

/-- utils/helpers.py parse_date: datetime.strptime with the Y-m-d
format, returning none where Python raises ValueError.  The year
directive of strptime matches exactly four digits, and strptime
validates month range and day-of-month range through the date
constructor. -/
def parse_date (s : String) : Option Date :=
  match s.data with
  | [a, b, c, d, s1, e, f, s2, g, h] =>
    if s1 = '-' ∧ s2 = '-' then
      match read4 a b c d, read2 e f, read2 g h with
      | some y, some m, some dd =>
        if 1 ≤ y ∧ 1 ≤ m ∧ m ≤ 12 ∧ 1 ≤ dd ∧ dd ≤ daysInMonth y m then
          some ⟨y, m, dd⟩
        else none
      | _, _, _ => none
    else none
  | _ => none

/-- datetime.strptime with the H:M format, as used by
get_next_scheduled_time; result in seconds since midnight. -/
def parseTimeHM (s : String) : Option Nat :=
  match s.data with
  | [a, b, s1, c, d] =>
    if s1 = ':' then
      match read2 a b, read2 c d with
      | some hh, some mm =>
        if hh ≤ 23 ∧ mm ≤ 59 then some (hh * 3600 + mm * 60) else none
      | _, _ => none
    else none
  | _ => none

/-! ## Data model (main.py session state) -/

/-- An item record as stored in a storage unit's contents
(main.py, storage_units session state). -/
structure ItemRecord where
  quantity : Nat
  category : String
  date_added : String
  expiration_date : String
deriving Repr, DecidableEq

/-- A storage unit: its type label and its contents.  Python stores
contents as a dict item name to record; insertion-ordered association
lists model that. -/
structure StorageUnit where
  type : String
  contents : List (String × ItemRecord)
deriving Repr, DecidableEq

/-- A hit produced by check_expiring_items.  Python builds dicts; the
expired dicts carry no key field and neither carries a quantity field,
which Option models (none = key absent from the dict). -/
structure ItemHit where
  item : String
  unit : String
  days : Int
  exp_date : String
  category : String
  key : Option String
  quantity : Option Nat
deriving Repr, DecidableEq

/-! ## The expiration scanner (main.py check_expiring_items) -/

/-- The three streams produced while scanning: expired items,
expiring-soon warnings, and the (item, unit) pairs reported through
st.error for unparseable dates. -/
structure ScanResult where
  expired : List ItemHit
  warnings : List ItemHit
  errors : List (String × String)
deriving Repr, DecidableEq

def ScanResult.app (a b : ScanResult) : ScanResult :=
  ⟨a.expired ++ b.expired, a.warnings ++ b.warnings, a.errors ++ b.errors⟩

/-- The body of the inner loop of check_expiring_items for one
(storage unit, item) pair.  days_remaining is the Python date
subtraction (expiration_date - current_date).days; today is the
ordinal of datetime.now().date(). -/
def scanItem (storage_name item_name : String) (rec : ItemRecord)
    (reminders : List String) (today : Nat) : ScanResult :=
  match parse_date rec.expiration_date with
  | none => ⟨[], [], [(item_name, storage_name)]⟩
  | some ed =>
    let days_remaining : Int := (toOrdinal ed : Int) - (today : Int)
    if days_remaining < 0 then
      ⟨[{ item := item_name, unit := storage_name,
          days := (days_remaining.natAbs : Int),
          exp_date := format_date ed, category := rec.category,
          key := none, quantity := none }], [], []⟩
    else if days_remaining ≤ 7 then
      let reminder_key := storage_name ++ "_" ++ item_name
      if reminder_key ∈ reminders then ⟨[], [], []⟩
      else
        ⟨[], [{ item := item_name, unit := storage_name,
                days := days_remaining,
                exp_date := format_date ed, category := rec.category,
                key := some reminder_key, quantity := none }], []⟩
    else ⟨[], [], []⟩

/-- The inner loop of check_expiring_items over one unit's contents. -/
def scanUnit (storage_name : String) (contents : List (String × ItemRecord))
    (reminders : List String) (today : Nat) : ScanResult :=
  match contents with
  | [] => ⟨[], [], []⟩
  | (item_name, rec) :: rest =>
    (scanItem storage_name item_name rec reminders today).app
      (scanUnit storage_name rest reminders today)

/-- The outer loop of check_expiring_items over all storage units.
The per-unit guard that skips units with empty contents is a no-op on
an empty fold, so the plain fold is the faithful result. -/
def scanCore (units : List (String × StorageUnit))
    (reminders : List String) (today : Nat) : ScanResult :=
  match units with
  | [] => ⟨[], [], []⟩
  | (storage_name, su) :: rest =>
    (scanUnit storage_name su.contents reminders today).app
      (scanCore rest reminders today)

/-- main.py check_expiring_items: returns (expired_items,
expiration_warnings).  The leading truthiness guard (non-empty units
dict and some unit with non-empty contents) is embedded literally. -/
def check_expiring_items (units : List (String × StorageUnit))
    (reminders : List String) (today : Nat) :
    List ItemHit × List ItemHit :=
  if units.all (fun u => u.2.contents.isEmpty) then ([], [])
  else
    let r := scanCore units reminders today
    (r.expired, r.warnings)

/-! ## Preference filter (email_handler.py send_expiration_notification) -/

/-- The notification preference record stored under
config email notifications preferences. -/
structure Preferences where
  notify_expired : Bool
  notify_expiring_soon : Bool
  notify_low_quantity : Bool
  notify_removed_items : Bool
  notify_added_items : Bool
  expiring_soon_days : Nat
  low_quantity_threshold : Nat
deriving Repr, DecidableEq

/-- The filtering loop of send_expiration_notification over the items
argument: expired bucket when days below zero and notify_expired,
otherwise (elif) expiring bucket when days at least zero,
notify_expiring_soon and days within expiring_soon_days; the
low-quantity check runs independently on every item, with the
quantity dict lookup defaulting to 0 when the key is absent. -/
def filterItems (items : List ItemHit) (p : Preferences) :
    List ItemHit × List ItemHit × List ItemHit :=
  match items with
  | [] => ([], [], [])
  | i :: rest =>
    let r := filterItems rest p
    let expired_items :=
      if i.days < 0 ∧ p.notify_expired then i :: r.1 else r.1
    let expiring_items :=
      if ¬(i.days < 0 ∧ p.notify_expired) ∧ 0 ≤ i.days ∧ p.notify_expiring_soon
          ∧ i.days ≤ (p.expiring_soon_days : Int) then
        i :: r.2.1
      else r.2.1
    let low_quantity_items :=
      if p.notify_low_quantity ∧ i.quantity.getD 0 ≤ p.low_quantity_threshold then
        i :: r.2.2
      else r.2.2
    (expired_items, expiring_items, low_quantity_items)

/-- What send_expiration_notification decides to do after filtering:
either it returns before any SMTP transport is touched (nothing to
notify), or it builds the message from the three filtered lists and
invokes the transport. -/
inductive SendOutcome where
  | nothingToNotify
  | invokeTransport (expired expiring low : List ItemHit)
deriving Repr, DecidableEq

/-- The decision core of send_expiration_notification: filter the
items by preferences, and short-circuit when all three filtered lists
are empty. -/
def send_expiration_notification (items : List ItemHit) (p : Preferences) :
    SendOutcome :=
  let r := filterItems items p
  if r.1 = [] ∧ r.2.1 = [] ∧ r.2.2 = [] then .nothingToNotify
  else .invokeTransport r.1 r.2.1 r.2.2

/-- Modelled from the spec: section 4.2 describes a low-quantity list
computed from the full current inventory (not only the
expired/expiring candidates) as the items whose quantity is at most
low_quantity_threshold.  No such computation exists in the code; this
definition follows the spec's words and is compared against the
code's filter. -/
def lowQuantityFromInventory (units : List (String × StorageUnit))
    (threshold : Nat) : List String :=
  units.flatMap (fun u =>
    (u.2.contents.filter (fun it => it.2.quantity ≤ threshold)).map
      (fun it => it.1))

/-! ## Notification scheduler (email_handler.py get_next_scheduled_time) -/

/-- The for-loop of get_next_scheduled_time: advance next_date one day
at a time, breaking on the first date whose weekday is in weekdays;
range(8) gives eight iterations, so with no match the date eight days
ahead is kept. -/
def findDay (weekdays : List Nat) : Nat → Nat → Nat
  | d, 0 => d
  | d, fuel + 1 =>
    if weekdayOf (d + 1) ∈ weekdays then d + 1
    else findDay weekdays (d + 1) fuel

/-- email_handler.py get_next_scheduled_time.  The time string is
parsed with strptime H:M (none models the ValueError); now stands for
datetime.now().  The branch condition is embedded literally: scan
forward when today's weekday is not allowed, or it is allowed but the
current time of day is strictly past the scheduled time. -/
def get_next_scheduled_time (weekdays : List Nat) (time_str : String)
    (now : DateTime) : Option DateTime :=
  match parseTimeHM time_str with
  | none => none
  | some scheduled_time =>
    let next_date :=
      if weekdayOf now.date ∉ weekdays ∨
          (weekdayOf now.date ∈ weekdays ∧ scheduled_time < now.tod) then
        findDay weekdays now.date 8
      else now.date
    some ⟨next_date, scheduled_time⟩

/-! ## strip_emoji and history entries (utils/helpers.py, main.py) -/

/-- Whitespace characters recognised by Python str.split with no
arguments (the ASCII ones; the category labels only contain
spaces). -/
def isPyWS (c : Char) : Bool :=
  c = ' ' ∨ c = '\t' ∨ c = '\n' ∨ c = '\x0d' ∨ c = '\x0b' ∨ c = '\x0c'

/-- Accumulating word splitter over the character list: words are
maximal runs of non-whitespace, empties dropped, as Python
str.split() behaves. -/
def pyWordsAux (cur : List Char) : List Char → List (List Char)
  | [] => if cur = [] then [] else [cur.reverse]
  | c :: cs =>
    if isPyWS c then
      if cur = [] then pyWordsAux [] cs else cur.reverse :: pyWordsAux [] cs
    else pyWordsAux (c :: cur) cs

/-- Python text.split() on a string. -/
def pySplit (s : String) : List String :=
  (pyWordsAux [] s.data).map String.mk

/-- utils/helpers.py strip_emoji: join the tokens after the first with
single spaces; whitespace-only or empty input is returned unchanged. -/
def strip_emoji (text : String) : String :=
  if pySplit text = [] then text
  else String.intercalate " " ((pySplit text).drop 1)

/-- A history entry as built by main.py add_to_history. -/
structure HistoryEntry where
  timestamp : String
  action : String
  item : String
  category : String
  quantity : Nat
  storage_unit : String
  expired : Bool
  expiration_date : Option String
  is_example : Bool
  username : String
deriving Repr, DecidableEq

/-- main.py add_to_history: the history entry appended to
st.session_state.item_history; the category label is passed through
strip_emoji before being stored. -/
def add_to_history (action item_name category : String) (quantity : Nat)
    (storage_unit : String) (expired : Bool) (exp_date : Option String)
    (is_example : Bool) (timestamp : String) (username : String)
    (history : List HistoryEntry) : List HistoryEntry :=
  history ++
    [{ timestamp := timestamp, action := action, item := item_name,
       category := strip_emoji category, quantity := quantity,
       storage_unit := storage_unit, expired := expired,
       expiration_date := exp_date, is_example := is_example,
       username := username }]

/-! ## Scanner lemmas -/

@[simp] theorem ScanResult.app_expired (a b : ScanResult) :
    (a.app b).expired = a.expired ++ b.expired := rfl

@[simp] theorem ScanResult.app_warnings (a b : ScanResult) :
    (a.app b).warnings = a.warnings ++ b.warnings := rfl

@[simp] theorem ScanResult.app_errors (a b : ScanResult) :
    (a.app b).errors = a.errors ++ b.errors := rfl

theorem scanUnit_append (storage_name : String)
    (xs ys : List (String × ItemRecord)) (reminders : List String)
    (today : Nat) :
    scanUnit storage_name (xs ++ ys) reminders today =
      (scanUnit storage_name xs reminders today).app
        (scanUnit storage_name ys reminders today) := by
  induction xs with
  | nil => simp [scanUnit, ScanResult.app]
  | cons hd tl ih =>
    obtain ⟨n, rec⟩ := hd
    simp [scanUnit, ih, ScanResult.app]

/-- A unit with empty contents contributes nothing. -/
theorem scanUnit_nil (storage_name : String) (reminders : List String)
    (today : Nat) :
    scanUnit storage_name [] reminders today = ⟨[], [], []⟩ := rfl

/-- When every unit has empty contents the fold is empty, so the
leading truthiness guard of check_expiring_items never changes the
result. -/
theorem scanCore_all_empty (units : List (String × StorageUnit))
    (reminders : List String) (today : Nat)
    (h : units.all (fun u => u.2.contents.isEmpty)) :
    scanCore units reminders today = ⟨[], [], []⟩ := by
  induction units with
  | nil => rfl
  | cons hd tl ih =>
    obtain ⟨n, su⟩ := hd
    simp only [List.all_cons, Bool.and_eq_true] at h
    have hc : su.contents = [] := by
      simpa [List.isEmpty_iff] using h.1
    simp [scanCore, hc, scanUnit_nil, ScanResult.app, ih h.2]

theorem check_expiring_items_eq (units : List (String × StorageUnit))
    (reminders : List String) (today : Nat) :
    check_expiring_items units reminders today =
      ((scanCore units reminders today).expired,
       (scanCore units reminders today).warnings) := by
  unfold check_expiring_items
  by_cases h : units.all (fun u => u.2.contents.isEmpty)
  · simp [h, scanCore_all_empty units reminders today h]
  · simp [h]

theorem scanUnit_mem (storage_name item_name : String) (rec : ItemRecord)
    (contents : List (String × ItemRecord)) (reminders : List String)
    (today : Nat) (hm : (item_name, rec) ∈ contents) :
    (scanItem storage_name item_name rec reminders today).expired ⊆
        (scanUnit storage_name contents reminders today).expired ∧
      (scanItem storage_name item_name rec reminders today).warnings ⊆
        (scanUnit storage_name contents reminders today).warnings := by
  induction contents with
  | nil => cases hm
  | cons hd tl ih =>
    obtain ⟨n, r⟩ := hd
    rcases List.mem_cons.mp hm with heq | htl
    · obtain ⟨h1, h2⟩ := Prod.mk.injEq .. ▸ heq
      subst h1; subst h2
      constructor <;>
        · intro x hx
          simp [scanUnit]
          exact Or.inl hx
    · obtain ⟨ih1, ih2⟩ := ih htl
      constructor <;>
        · intro x hx
          simp [scanUnit]
          right
          first
          | exact ih1 hx
          | exact ih2 hx

theorem scanCore_mem (storage_name : String) (su : StorageUnit)
    (units : List (String × StorageUnit)) (reminders : List String)
    (today : Nat) (hm : (storage_name, su) ∈ units) :
    (scanUnit storage_name su.contents reminders today).expired ⊆
        (scanCore units reminders today).expired ∧
      (scanUnit storage_name su.contents reminders today).warnings ⊆
        (scanCore units reminders today).warnings := by
  induction units with
  | nil => cases hm
  | cons hd tl ih =>
    obtain ⟨n, u⟩ := hd
    rcases List.mem_cons.mp hm with heq | htl
    · obtain ⟨h1, h2⟩ := Prod.mk.injEq .. ▸ heq
      subst h1; subst h2
      constructor <;>
        · intro x hx
          simp [scanCore]
          exact Or.inl hx
    · obtain ⟨ih1, ih2⟩ := ih htl
      constructor <;>
        · intro x hx
          simp [scanCore]
          right
          first
          | exact ih1 hx
          | exact ih2 hx

/-- Every warning the scanner emits carries a reminder key that was
not in the already-notified map. -/
theorem scanItem_warning_key (storage_name item_name : String)
    (rec : ItemRecord) (reminders : List String) (today : Nat) :
    ∀ hit ∈ (scanItem storage_name item_name rec reminders today).warnings,
      ∃ k, hit.key = some k ∧ k ∉ reminders := by
  intro hit hh
  unfold scanItem at hh
  split at hh
  · simp at hh
  · dsimp only at hh
    split at hh
    · simp at hh
    · split at hh
      · split at hh
        · simp at hh
        · simp at hh
          subst hh
          exact ⟨_, rfl, by assumption⟩
      · simp at hh

theorem scanUnit_warning_key (storage_name : String)
    (contents : List (String × ItemRecord)) (reminders : List String)
    (today : Nat) :
    ∀ hit ∈ (scanUnit storage_name contents reminders today).warnings,
      ∃ k, hit.key = some k ∧ k ∉ reminders := by
  induction contents with
  | nil => intro hit hh; cases hh
  | cons hd tl ih =>
    obtain ⟨n, r⟩ := hd
    intro hit hh
    simp only [scanUnit, ScanResult.app_warnings, List.mem_append] at hh
    rcases hh with hh | hh
    · exact scanItem_warning_key storage_name n r reminders today hit hh
    · exact ih hit hh

theorem scanCore_warning_key (units : List (String × StorageUnit))
    (reminders : List String) (today : Nat) :
    ∀ hit ∈ (scanCore units reminders today).warnings,
      ∃ k, hit.key = some k ∧ k ∉ reminders := by
  induction units with
  | nil => intro hit hh; cases hh
  | cons hd tl ih =>
    obtain ⟨n, u⟩ := hd
    intro hit hh
    simp only [scanCore, ScanResult.app_warnings, List.mem_append] at hh
    rcases hh with hh | hh
    · exact scanUnit_warning_key n u.contents reminders today hit hh
    · exact ih hit hh

/-- The expired stream never consults the reminders map. -/
theorem scanItem_expired_reminders (storage_name item_name : String)
    (rec : ItemRecord) (r1 r2 : List String) (today : Nat) :
    (scanItem storage_name item_name rec r1 today).expired =
      (scanItem storage_name item_name rec r2 today).expired := by
  unfold scanItem
  split
  · rfl
  · dsimp only
    split
    · rfl
    · split
      · split <;> split <;> rfl
      · rfl

theorem scanUnit_expired_reminders (storage_name : String)
    (contents : List (String × ItemRecord)) (r1 r2 : List String)
    (today : Nat) :
    (scanUnit storage_name contents r1 today).expired =
      (scanUnit storage_name contents r2 today).expired := by
  induction contents with
  | nil => rfl
  | cons hd tl ih =>
    obtain ⟨n, r⟩ := hd
    simp only [scanUnit, ScanResult.app_expired, ih,
      scanItem_expired_reminders storage_name n r r1 r2 today]

theorem scanCore_expired_reminders (units : List (String × StorageUnit))
    (r1 r2 : List String) (today : Nat) :
    (scanCore units r1 today).expired = (scanCore units r2 today).expired := by
  induction units with
  | nil => rfl
  | cons hd tl ih =>
    obtain ⟨n, u⟩ := hd
    simp only [scanCore, ScanResult.app_expired, ih,
      scanUnit_expired_reminders n u.contents r1 r2 today]

theorem scanCore_append (xs ys : List (String × StorageUnit))
    (reminders : List String) (today : Nat) :
    scanCore (xs ++ ys) reminders today =
      (scanCore xs reminders today).app (scanCore ys reminders today) := by
  induction xs with
  | nil => simp [scanCore, ScanResult.app]
  | cons hd tl ih =>
    obtain ⟨n, u⟩ := hd
    simp [scanCore, ih, ScanResult.app]

/-- On a successfully parsed date strictly before today, scanItem
emits exactly one expired hit and nothing else. -/
theorem scanItem_expired_eq (storage_name item_name : String)
    (rec : ItemRecord) (reminders : List String) (today : Nat) (d : Date)
    (hp : parse_date rec.expiration_date = some d)
    (hlt : (toOrdinal d : Int) < (today : Int)) :
    scanItem storage_name item_name rec reminders today =
      ⟨[{ item := item_name, unit := storage_name,
          days := ((((toOrdinal d : Int) - (today : Int)).natAbs : Nat) : Int),
          exp_date := format_date d, category := rec.category,
          key := none, quantity := none }], [], []⟩ := by
  unfold scanItem
  rw [hp]
  simp only
  rw [if_pos (by omega)]

/-- On a successfully parsed date within the seven-day window whose
reminder key is not yet notified, scanItem emits exactly one
warning. -/
theorem scanItem_warning_eq (storage_name item_name : String)
    (rec : ItemRecord) (reminders : List String) (today : Nat) (d : Date)
    (hp : parse_date rec.expiration_date = some d)
    (h0 : 0 ≤ (toOrdinal d : Int) - (today : Int))
    (h7 : (toOrdinal d : Int) - (today : Int) ≤ 7)
    (hk : storage_name ++ "_" ++ item_name ∉ reminders) :
    scanItem storage_name item_name rec reminders today =
      ⟨[], [{ item := item_name, unit := storage_name,
              days := (toOrdinal d : Int) - (today : Int),
              exp_date := format_date d, category := rec.category,
              key := some (storage_name ++ "_" ++ item_name),
              quantity := none }], []⟩ := by
  unfold scanItem
  rw [hp]
  simp only
  rw [if_neg (by omega), if_pos (by omega), if_neg hk]

/-- C1: every item whose expiration date parses to a date strictly
before today appears in the expired list of check_expiring_items with
days_since_expiry equal to today minus the expiration date, a
positive number; and the expired list does not depend on the
reminders map at all (expired items are re-reported on every scan,
with no ReminderKey deduplication). -/
theorem c1_expired_always_reported
    (units : List (String × StorageUnit)) (reminders : List String)
    (today : Nat) (uname : String) (su : StorageUnit)
    (iname : String) (rec : ItemRecord) (d : Date)
    (hu : (uname, su) ∈ units) (hi : (iname, rec) ∈ su.contents)
    (hp : parse_date rec.expiration_date = some d)
    (hlt : (toOrdinal d : Int) < (today : Int)) :
    (∃ hit ∈ (check_expiring_items units reminders today).1,
        hit.item = iname ∧ hit.unit = uname ∧
        hit.days = (today : Int) - (toOrdinal d : Int) ∧ 0 < hit.days)
    ∧ ∀ r2, (check_expiring_items units reminders today).1 =
        (check_expiring_items units r2 today).1 := by
  constructor
  · have hsi := scanItem_expired_eq uname iname rec reminders today d hp hlt
    have hmem1 := (scanUnit_mem uname iname rec su.contents reminders today hi).1
    have hmem2 := (scanCore_mem uname su units reminders today hu).1
    rw [check_expiring_items_eq]
    refine ⟨_, hmem2 (hmem1 (by rw [hsi]; exact List.mem_singleton.mpr rfl)),
      rfl, rfl, ?_, ?_⟩ <;> dsimp only <;> omega
  · intro r2
    rw [check_expiring_items_eq, check_expiring_items_eq]
    exact scanCore_expired_reminders units reminders r2 today

/-- C2: an item whose expiration date parses to a date between zero
and seven days from today is placed in the expiring-soon list exactly
when its reminder key (storage unit, underscore, item name) is not
already present in the notified-reminders map: if the key is absent a
warning carrying that key is emitted, and every emitted warning
carries a key absent from the map. -/
theorem c2_expiring_soon_dedup
    (units : List (String × StorageUnit)) (reminders : List String)
    (today : Nat) (uname : String) (su : StorageUnit)
    (iname : String) (rec : ItemRecord) (d : Date)
    (hu : (uname, su) ∈ units) (hi : (iname, rec) ∈ su.contents)
    (hp : parse_date rec.expiration_date = some d)
    (h0 : 0 ≤ (toOrdinal d : Int) - (today : Int))
    (h7 : (toOrdinal d : Int) - (today : Int) ≤ 7) :
    (uname ++ "_" ++ iname) ∉ reminders ↔
      ∃ hit ∈ (check_expiring_items units reminders today).2,
        hit.key = some (uname ++ "_" ++ iname) := by
  constructor
  · intro hk
    have hsi := scanItem_warning_eq uname iname rec reminders today d hp h0 h7 hk
    have hmem1 := (scanUnit_mem uname iname rec su.contents reminders today hi).2
    have hmem2 := (scanCore_mem uname su units reminders today hu).2
    rw [check_expiring_items_eq]
    exact ⟨_, hmem2 (hmem1 (by rw [hsi]; exact List.mem_singleton.mpr rfl)), rfl⟩
  · intro ⟨hit, hmem, hkey⟩
    rw [check_expiring_items_eq] at hmem
    obtain ⟨k, hk1, hk2⟩ := scanCore_warning_key units reminders today hit hmem
    rw [hkey] at hk1
    cases hk1
    exact hk2

/-- C8: an item whose expiration date string does not parse is
skipped: the scan of an inventory containing it returns exactly the
same expired and expiring lists as the scan of the same inventory
with that item absent, and the scan surfaces a warning naming the
item and its storage unit. -/
theorem c8_malformed_date_skipped
    (A B : List (String × StorageUnit)) (uname ty : String)
    (pre post : List (String × ItemRecord)) (bname : String)
    (brec : ItemRecord) (reminders : List String) (today : Nat)
    (hbad : parse_date brec.expiration_date = none) :
    check_expiring_items
        (A ++ (uname, ⟨ty, pre ++ (bname, brec) :: post⟩) :: B) reminders today
      = check_expiring_items
          (A ++ (uname, ⟨ty, pre ++ post⟩) :: B) reminders today
    ∧ (bname, uname) ∈
        (scanCore (A ++ (uname, ⟨ty, pre ++ (bname, brec) :: post⟩) :: B)
          reminders today).errors := by
  have hitem : scanItem uname bname brec reminders today =
      ⟨[], [], [(bname, uname)]⟩ := by
    unfold scanItem
    rw [hbad]
  constructor
  · rw [check_expiring_items_eq, check_expiring_items_eq]
    have h1 : scanUnit uname (pre ++ (bname, brec) :: post) reminders today =
        (scanUnit uname pre reminders today).app
          ((scanItem uname bname brec reminders today).app
            (scanUnit uname post reminders today)) := by
      rw [scanUnit_append]
      rfl
    have h2 : scanUnit uname (pre ++ post) reminders today =
        (scanUnit uname pre reminders today).app
          (scanUnit uname post reminders today) := scanUnit_append ..
    simp [scanCore_append, scanCore, h1, h2, hitem, ScanResult.app]
  · have h1 : scanUnit uname (pre ++ (bname, brec) :: post) reminders today =
        (scanUnit uname pre reminders today).app
          ((scanItem uname bname brec reminders today).app
            (scanUnit uname post reminders today)) := by
      rw [scanUnit_append]
      rfl
    simp [scanCore_append, scanCore, h1, hitem, ScanResult.app]

/-! ## Scheduler lemmas -/

/-- The day-stepping loop stops at the first strictly later day whose
weekday is allowed, provided one exists within the fuel. -/
theorem findDay_eq (W : List Nat) (fuel d k : Nat) (h1 : 1 ≤ k)
    (h2 : k ≤ fuel) (h3 : weekdayOf (d + k) ∈ W)
    (h4 : ∀ j, 1 ≤ j → j < k → weekdayOf (d + j) ∉ W) :
    findDay W d fuel = d + k := by
  induction fuel generalizing d k with
  | zero => omega
  | succ n ih =>
    by_cases hm : weekdayOf (d + 1) ∈ W
    · have hk1 : k = 1 := by
        by_contra hne
        exact h4 1 le_rfl (by omega) hm
      subst hk1
      simp [findDay, hm]
    · have hk1 : k ≠ 1 := fun he => hm (he ▸ h3)
      have hstep : findDay W d (n + 1) = findDay W (d + 1) n := by
        simp [findDay, hm]
      rw [hstep]
      have h3' : weekdayOf (d + 1 + (k - 1)) ∈ W := by
        have e : d + 1 + (k - 1) = d + k := by omega
        rw [e]; exact h3
      have h4' : ∀ j, 1 ≤ j → j < k - 1 → weekdayOf (d + 1 + j) ∉ W := by
        intro j hj1 hj2
        have e : d + 1 + j = d + (j + 1) := by omega
        rw [e]
        exact h4 (j + 1) (by omega) (by omega)
      have := ih (d + 1) (k - 1) (by omega) (by omega) h3' h4'
      rw [this]
      omega

/-- With no allowed weekday at all the loop exhausts its fuel. -/
theorem findDay_nil (d fuel : Nat) : findDay [] d fuel = d + fuel := by
  induction fuel generalizing d with
  | zero => simp [findDay]
  | succ n ih =>
    simp only [findDay, List.not_mem_nil, if_false]
    rw [ih]
    omega

/-- Among the seven days after any date, every weekday value below
seven occurs at least once. -/
theorem exists_weekday_within_seven (D w : Nat) (hw : w < 7) :
    ∃ i, 1 ≤ i ∧ i ≤ 7 ∧ weekdayOf (D + i) = w := by
  unfold weekdayOf
  by_cases h0 : (w + 7 - (D + 6) % 7) % 7 = 0
  · exact ⟨7, by omega, by omega, by omega⟩
  · exact ⟨(w + 7 - (D + 6) % 7) % 7, by omega, by omega, by omega⟩

/-- C3: with a non-empty set of genuine weekdays and a parseable time
string, get_next_scheduled_time returns today at the scheduled time
when today's weekday is allowed and the current time of day has not
passed the scheduled time (boundary inclusive); otherwise it returns
the first later date, between one and seven days ahead, whose weekday
is allowed, at the scheduled time. -/
theorem c3_next_send_time
    (weekdays : List Nat) (time_str : String) (sched : Nat) (now : DateTime)
    (hp : parseTimeHM time_str = some sched)
    (hw : ∃ w, w ∈ weekdays ∧ w < 7) :
    (weekdayOf now.date ∈ weekdays ∧ now.tod ≤ sched →
      get_next_scheduled_time weekdays time_str now = some ⟨now.date, sched⟩)
    ∧ (¬(weekdayOf now.date ∈ weekdays ∧ now.tod ≤ sched) →
      ∃ k, 1 ≤ k ∧ k ≤ 7 ∧ weekdayOf (now.date + k) ∈ weekdays ∧
        (∀ j, 1 ≤ j → j < k → weekdayOf (now.date + j) ∉ weekdays) ∧
        get_next_scheduled_time weekdays time_str now =
          some ⟨now.date + k, sched⟩) := by
  constructor
  · intro ⟨hd, ht⟩
    unfold get_next_scheduled_time
    rw [hp]
    simp only
    rw [if_neg (by push_neg; exact ⟨hd, fun _ => by omega⟩)]
  · intro hnot
    obtain ⟨w, hwmem, hw7⟩ := hw
    obtain ⟨i0, hi1, hi7, hieq⟩ := exists_weekday_within_seven now.date w hw7
    have hex : ∃ i, 1 ≤ i ∧ weekdayOf (now.date + i) ∈ weekdays :=
      ⟨i0, hi1, hieq ▸ hwmem⟩
    have hspec := Nat.find_spec hex
    have hle : Nat.find hex ≤ i0 := Nat.find_min' hex ⟨hi1, hieq ▸ hwmem⟩
    refine ⟨Nat.find hex, hspec.1, by omega, hspec.2, ?_, ?_⟩
    · intro j hj1 hj2
      intro hjin
      exact Nat.find_min hex hj2 ⟨hj1, hjin⟩
    · unfold get_next_scheduled_time
      rw [hp]
      simp only
      rw [if_pos]
      · rw [findDay_eq weekdays 8 now.date (Nat.find hex) hspec.1 (by omega)
          hspec.2 (fun j hj1 hj2 hjin => Nat.find_min hex hj2 ⟨hj1, hjin⟩)]
      · by_cases hd : weekdayOf now.date ∈ weekdays
        · right
          refine ⟨hd, ?_⟩
          by_contra hts
          exact hnot ⟨hd, by omega⟩
        · exact Or.inl hd

/-- C3 witness: Monday 2024-01-01 at exactly 08:00 with the
Monday-Wednesday-Friday schedule keeps today as the send date
(boundary inclusive). -/
theorem c3_next_send_time_witness :
    get_next_scheduled_time [0, 2, 4] "08:00"
        ⟨toOrdinal ⟨2024, 1, 1⟩, 28800⟩ =
      some ⟨toOrdinal ⟨2024, 1, 1⟩, 28800⟩ :=
  (c3_next_send_time [0, 2, 4] "08:00" 28800
      ⟨toOrdinal ⟨2024, 1, 1⟩, 28800⟩ (by decide)
      ⟨0, by decide, by decide⟩).1 (by constructor <;> decide)

/-- C4 counterexample: with an empty weekday set the code does not
signal any error: on Wednesday 2024-01-03 09:00 it returns an actual
datetime, eight days ahead at the scheduled time. -/
theorem c4_counterexample :
    get_next_scheduled_time [] "08:00" ⟨toOrdinal ⟨2024, 1, 3⟩, 32400⟩ =
      some ⟨toOrdinal ⟨2024, 1, 3⟩ + 8, 28800⟩ := by decide

/-- C4 amended: with an empty weekday set and a parseable time
string, get_next_scheduled_time neither raises nor loops forever: for
every now it returns the date eight days ahead at the scheduled time
(the loop exhausts its eight iterations without finding an allowed
weekday).  No ScheduleError exists anywhere in the code. -/
theorem c4_empty_weekdays_returns
    (time_str : String) (sched : Nat) (now : DateTime)
    (hp : parseTimeHM time_str = some sched) :
    get_next_scheduled_time [] time_str now = some ⟨now.date + 8, sched⟩ := by
  unfold get_next_scheduled_time
  rw [hp]
  simp only
  rw [if_pos (Or.inl (List.not_mem_nil _)), findDay_nil]

/-- C4 amended witness. -/
theorem c4_empty_weekdays_returns_witness :
    get_next_scheduled_time [] "08:00" ⟨toOrdinal ⟨2024, 1, 10⟩, 0⟩ =
      some ⟨toOrdinal ⟨2024, 1, 10⟩ + 8, 28800⟩ :=
  c4_empty_weekdays_returns "08:00" 28800 ⟨toOrdinal ⟨2024, 1, 10⟩, 0⟩
    (by decide)

/-- C5 counterexample: for Tuesday-only at 08:00 seen from Wednesday
2024-01-03 09:00, the code returns 2024-01-09, the following Tuesday,
which is six days later, not seven. -/
theorem c5_counterexample :
    weekdayOf (toOrdinal ⟨2024, 1, 3⟩) = 2 ∧
    get_next_scheduled_time [1] "08:00" ⟨toOrdinal ⟨2024, 1, 3⟩, 32400⟩ =
      some ⟨toOrdinal ⟨2024, 1, 3⟩ + 6, 28800⟩ ∧
    weekdayOf (toOrdinal ⟨2024, 1, 3⟩ + 6) = 1 ∧
    toOrdinal ⟨2024, 1, 3⟩ + 6 ≠ toOrdinal ⟨2024, 1, 3⟩ + 7 := by decide

/-- C5 amended: for weekdays Tuesday-only, time 08:00 and now any
Wednesday at 09:00, get_next_scheduled_time returns the following
Tuesday at 08:00, which is six days later. -/
theorem c5_tuesday_from_wednesday (o : Nat) (hwed : weekdayOf o = 2) :
    get_next_scheduled_time [1] "08:00" ⟨o, 32400⟩ = some ⟨o + 6, 28800⟩ ∧
      weekdayOf (o + 6) = 1 := by
  have ho : o % 7 = 3 := by
    unfold weekdayOf at hwed
    omega
  constructor
  · unfold get_next_scheduled_time
    rw [show parseTimeHM "08:00" = some 28800 from by decide]
    simp only
    rw [if_pos]
    · rw [findDay_eq [1] 8 o 6 (by omega) (by omega)]
      · simp only [List.mem_singleton]
        unfold weekdayOf
        omega
      · intro j hj1 hj2
        simp only [List.mem_singleton]
        unfold weekdayOf
        interval_cases j <;> omega
    · left
      simp only [List.mem_singleton]
      rw [hwed]
      omega
  · unfold weekdayOf
    omega

/-- C5 amended witness at the concrete Wednesday 2024-01-03. -/
theorem c5_tuesday_from_wednesday_witness :
    get_next_scheduled_time [1] "08:00" ⟨toOrdinal ⟨2024, 1, 3⟩, 32400⟩ =
      some ⟨toOrdinal ⟨2024, 1, 3⟩ + 6, 28800⟩ :=
  (c5_tuesday_from_wednesday (toOrdinal ⟨2024, 1, 3⟩) (by decide)).1

/-! ## Preference filter lemmas and claims C6, C7 -/

/-- C6: with the expired, expiring-soon and low-quantity toggles all
off, the filter empties every bucket on any candidate list and
send_expiration_notification returns the nothing-to-notify outcome,
before the email transport is invoked. -/
theorem c6_all_toggles_off (items : List ItemHit) (p : Preferences)
    (h1 : p.notify_expired = false)
    (h2 : p.notify_expiring_soon = false)
    (h3 : p.notify_low_quantity = false) :
    filterItems items p = ([], [], []) ∧
      send_expiration_notification items p = .nothingToNotify := by
  have hf : filterItems items p = ([], [], []) := by
    induction items with
    | nil => rfl
    | cons i rest ih =>
      simp [filterItems, h1, h2, h3, ih]
  refine ⟨hf, ?_⟩
  unfold send_expiration_notification
  rw [hf]
  simp

/-- C6 witness: a non-empty candidate list filtered with all three
toggles off. -/
theorem c6_all_toggles_off_witness :
    filterItems
        [{ item := "Mjölk", unit := "Kökskylskåp", days := 1,
           exp_date := "2024-03-27", category := "🥛 Mejeri",
           key := none, quantity := none }]
        ⟨false, false, false, false, false, 7, 2⟩ = ([], [], []) ∧
      send_expiration_notification
        [{ item := "Mjölk", unit := "Kökskylskåp", days := 1,
           exp_date := "2024-03-27", category := "🥛 Mejeri",
           key := none, quantity := none }]
        ⟨false, false, false, false, false, 7, 2⟩ = .nothingToNotify :=
  c6_all_toggles_off _ _ rfl rfl rfl

/-- Every hit the scanner emits lacks the quantity key. -/
theorem scanItem_quantity_none (storage_name item_name : String)
    (rec : ItemRecord) (reminders : List String) (today : Nat) :
    (∀ hit ∈ (scanItem storage_name item_name rec reminders today).expired,
        hit.quantity = none) ∧
      ∀ hit ∈ (scanItem storage_name item_name rec reminders today).warnings,
        hit.quantity = none := by
  constructor <;>
    · intro hit hh
      unfold scanItem at hh
      split at hh
      · simp at hh
      · dsimp only at hh
        split at hh
        · simp at hh
          try (subst hh; rfl)
        · split at hh
          · split at hh
            · simp at hh
            · simp at hh
              try (subst hh; rfl)
          · simp at hh

theorem scanCore_quantity_none (units : List (String × StorageUnit))
    (reminders : List String) (today : Nat) :
    (∀ hit ∈ (scanCore units reminders today).expired, hit.quantity = none) ∧
      ∀ hit ∈ (scanCore units reminders today).warnings,
        hit.quantity = none := by
  induction units with
  | nil => exact ⟨fun _ h => absurd h (List.not_mem_nil _),
      fun _ h => absurd h (List.not_mem_nil _)⟩
  | cons hd tl ih =>
    obtain ⟨n, u⟩ := hd
    have hu : (∀ hit ∈ (scanUnit n u.contents reminders today).expired,
          hit.quantity = none) ∧
        ∀ hit ∈ (scanUnit n u.contents reminders today).warnings,
          hit.quantity = none := by
      induction u.contents with
      | nil => exact ⟨fun _ h => absurd h (List.not_mem_nil _),
          fun _ h => absurd h (List.not_mem_nil _)⟩
      | cons c cs ihc =>
        obtain ⟨cn, cr⟩ := c
        constructor <;>
          · intro hit hh
            simp only [scanUnit, ScanResult.app_expired,
              ScanResult.app_warnings, List.mem_append] at hh
            rcases hh with hh | hh
            · first
              | exact (scanItem_quantity_none n cn cr reminders today).1 hit hh
              | exact (scanItem_quantity_none n cn cr reminders today).2 hit hh
            · first
              | exact ihc.1 hit hh
              | exact ihc.2 hit hh
    constructor <;>
      · intro hit hh
        simp only [scanCore, ScanResult.app_expired, ScanResult.app_warnings,
          List.mem_append] at hh
        rcases hh with hh | hh
        · first
          | exact hu.1 hit hh
          | exact hu.2 hit hh
        · first
          | exact ih.1 hit hh
          | exact ih.2 hit hh

/-- On items that all lack the quantity key, the low-quantity bucket
keeps everything when the toggle is on (the dict lookup defaults to
zero, which is at most any threshold) and nothing when it is off. -/
theorem filterItems_low (items : List ItemHit) (p : Preferences)
    (hq : ∀ i ∈ items, i.quantity = none) :
    (filterItems items p).2.2 =
      if p.notify_low_quantity then items else [] := by
  induction items with
  | nil => simp [filterItems]
  | cons i rest ih =>
    have hi : i.quantity = none := hq i (List.mem_cons_self ..)
    have hrest := ih (fun j hj => hq j (List.mem_cons_of_mem i hj))
    by_cases hl : p.notify_low_quantity
    · simp only [filterItems]
      rw [if_pos (by rw [hi]; exact ⟨hl, Nat.zero_le _⟩)]
      simp [hrest, hl]
    · simp only [filterItems]
      rw [if_neg (by rw [hi]; exact fun h => hl h.1)]
      simp [hrest, hl]

/-- C7 counterexample: an inventory whose only item has quantity one
(at most the threshold two) but is far from expiring.  The spec's
full-inventory low-quantity list contains it, yet the filter as coded
sees only the scan candidates and returns an empty low-quantity list
even with the toggle on. -/
theorem c7_counterexample :
    (filterItems
        ((check_expiring_items
            [("Skafferi", ⟨"🏪 Skafferi",
              [("Pasta", ⟨1, "🍝 Spannmål & Pasta", "2024-01-01",
                "2024-03-01"⟩)]⟩)]
            [] (toOrdinal ⟨2024, 1, 1⟩)).1 ++
          (check_expiring_items
            [("Skafferi", ⟨"🏪 Skafferi",
              [("Pasta", ⟨1, "🍝 Spannmål & Pasta", "2024-01-01",
                "2024-03-01"⟩)]⟩)]
            [] (toOrdinal ⟨2024, 1, 1⟩)).2)
        ⟨true, true, true, false, false, 7, 2⟩).2.2 = [] ∧
      lowQuantityFromInventory
        [("Skafferi", ⟨"🏪 Skafferi",
          [("Pasta", ⟨1, "🍝 Spannmål & Pasta", "2024-01-01",
            "2024-03-01"⟩)]⟩)] 2 = ["Pasta"] := by decide

/-- C7 amended: the low-quantity list is computed from the candidate
items handed to the filter (the scanner's expired and expiring
output), not from the full inventory; since the scanner's dicts carry
no quantity key, the lookup defaults to zero and, with the toggle on,
every candidate is kept; with the toggle off the list is empty. -/
theorem c7_low_quantity_from_candidates
    (units : List (String × StorageUnit)) (reminders : List String)
    (today : Nat) (p : Preferences) (items : List ItemHit)
    (hitems : items = (check_expiring_items units reminders today).1 ++
      (check_expiring_items units reminders today).2) :
    (filterItems items p).2.2 =
      if p.notify_low_quantity then items else [] := by
  apply filterItems_low
  intro i hi
  rw [hitems, check_expiring_items_eq] at hi
  rcases List.mem_append.mp hi with h | h
  · exact (scanCore_quantity_none units reminders today).1 i h
  · exact (scanCore_quantity_none units reminders today).2 i h

/-- C7 amended witness: one expired item, toggle on, threshold two:
the low-quantity list is the whole candidate list. -/
theorem c7_low_quantity_from_candidates_witness :
    (filterItems
        ((check_expiring_items
            [("Kökskylskåp", ⟨"🧊 Kylskåp",
              [("Mjölk", ⟨1, "🥛 Mejeri", "2024-03-20", "2024-03-27"⟩)]⟩)]
            [] (toOrdinal ⟨2024, 3, 28⟩)).1 ++
          (check_expiring_items
            [("Kökskylskåp", ⟨"🧊 Kylskåp",
              [("Mjölk", ⟨1, "🥛 Mejeri", "2024-03-20", "2024-03-27"⟩)]⟩)]
            [] (toOrdinal ⟨2024, 3, 28⟩)).2)
        ⟨true, true, true, false, false, 7, 2⟩).2.2 =
      if (true : Bool) then
        (check_expiring_items
            [("Kökskylskåp", ⟨"🧊 Kylskåp",
              [("Mjölk", ⟨1, "🥛 Mejeri", "2024-03-20", "2024-03-27"⟩)]⟩)]
            [] (toOrdinal ⟨2024, 3, 28⟩)).1 ++
          (check_expiring_items
            [("Kökskylskåp", ⟨"🧊 Kylskåp",
              [("Mjölk", ⟨1, "🥛 Mejeri", "2024-03-20", "2024-03-27"⟩)]⟩)]
            [] (toOrdinal ⟨2024, 3, 28⟩)).2
      else [] :=
  c7_low_quantity_from_candidates _ [] (toOrdinal ⟨2024, 3, 28⟩)
    ⟨true, true, true, false, false, 7, 2⟩ _ rfl

/-! ## Round-trip lemmas and claim C9 -/

/-- Reading back a single formatted digit. -/
theorem charToDigit_digitChar (n : Nat) (h : n < 10) :
    charToDigit (digitChar n) = some n := by
  have hall : ∀ m : Fin 10, charToDigit (digitChar m.val) = some m.val := by
    decide
  exact hall ⟨n, h⟩

theorem read2_digits (n : Nat) (h : n ≤ 99) :
    read2 (digitChar (n / 10)) (digitChar (n % 10)) = some n := by
  unfold read2
  rw [charToDigit_digitChar (n / 10) (by omega),
    charToDigit_digitChar (n % 10) (by omega)]
  exact congrArg some (by omega)

theorem read4_digits (n : Nat) (h : n ≤ 9999) :
    read4 (digitChar (n / 1000)) (digitChar (n / 100 % 10))
      (digitChar (n / 10 % 10)) (digitChar (n % 10)) = some n := by
  unfold read4
  rw [charToDigit_digitChar (n / 1000) (by omega),
    charToDigit_digitChar (n / 100 % 10) (by omega),
    charToDigit_digitChar (n / 10 % 10) (by omega),
    charToDigit_digitChar (n % 10) (by omega)]
  exact congrArg some (by omega)

/-- C9 counterexample: the valid calendar date 0005-03-27 formats
(unpadded year, as strftime emits it) to a string the four-digit year
directive of strptime rejects, so the round trip fails on the
program. -/
theorem c9_counterexample :
    Date.Valid ⟨5, 3, 27⟩ ∧ format_date ⟨5, 3, 27⟩ = "5-03-27" ∧
      parse_date (format_date ⟨5, 3, 27⟩) = none ∧
      parse_date (format_date ⟨5, 3, 27⟩) ≠ some ⟨5, 3, 27⟩ := by decide

/-- C9 amended: for every valid calendar date whose year is at least
1000 (so that the unpadded strftime year has the four digits strptime
demands), formatting then parsing gives back the same date. -/
theorem c9_date_roundtrip (d : Date) (hv : d.Valid)
    (hy : 1000 ≤ d.year) :
    parse_date (format_date d) = some d := by
  obtain ⟨h1, h2, h3, h4, h5, h6⟩ := hv
  have hm99 : d.month ≤ 99 := by omega
  have hd99 : d.day ≤ 99 := by
    have : daysInMonth d.year d.month ≤ 31 := by
      unfold daysInMonth
      split
      · split <;> omega
      · split <;> omega
    omega
  have hyd : yearDigits d.year =
      [digitChar (d.year / 1000), digitChar (d.year / 100 % 10),
       digitChar (d.year / 10 % 10), digitChar (d.year % 10)] := by
    unfold yearDigits
    rw [if_neg (by omega), if_neg (by omega), if_neg (by omega)]
  unfold format_date parse_date
  rw [hyd]
  simp only [String.data, List.cons_append, List.nil_append]
  rw [if_pos (⟨trivial, trivial⟩ : True ∧ True), read4_digits d.year h2,
    read2_digits d.month hm99, read2_digits d.day hd99]
  simp only
  rw [if_pos ⟨h1, h3, h4, h5, h6⟩]

/-- C9 amended witness at the leap day 2024-02-29. -/
theorem c9_date_roundtrip_witness :
    parse_date (format_date ⟨2024, 2, 29⟩) = some ⟨2024, 2, 29⟩ :=
  c9_date_roundtrip ⟨2024, 2, 29⟩ (by decide) (by decide)

/-! ## Claim C10: strip_emoji and history entries -/

/-- C10: strip_emoji drops the first whitespace-separated token and
joins the remaining tokens with single spaces; in particular a label
that is a single token becomes the empty string; and add_to_history
stores strip_emoji of the category label in the entry it appends. -/
theorem c10_strip_emoji_drops_first_token :
    (∀ s tok rest, pySplit s = tok :: rest →
        strip_emoji s = String.intercalate " " rest)
    ∧ (∀ s tok, pySplit s = [tok] → strip_emoji s = "")
    ∧ (∀ action item_name category quantity storage_unit expired exp_date
          is_example timestamp username history,
        ∃ e, add_to_history action item_name category quantity storage_unit
            expired exp_date is_example timestamp username history =
            history ++ [e] ∧
          e.category = strip_emoji category) := by
  have hdrop : ∀ s tok rest, pySplit s = tok :: rest →
      strip_emoji s = String.intercalate " " rest := by
    intro s tok rest h
    unfold strip_emoji
    rw [if_neg (by simp [h]), h]
    rfl
  refine ⟨hdrop, ?_, ?_⟩
  · intro s tok h
    rw [hdrop s tok [] h]
    rfl
  · intro action item_name category quantity storage_unit expired exp_date
      is_example timestamp username history
    exact ⟨_, rfl, rfl⟩

/-- C10 witness: the single-token category label Mejeri is stored as
the empty string. -/
theorem c10_strip_emoji_drops_first_token_witness :
    strip_emoji "Mejeri" = "" :=
  c10_strip_emoji_drops_first_token.2.1 "Mejeri" "Mejeri" (by decide)

/-! ## Witnesses for the scanner claims -/

/-- C1 witness: Milk expired one day ago is reported with one day
since expiry. -/
theorem c1_expired_always_reported_witness :
    ∃ hit ∈ (check_expiring_items
        [("Kökskylskåp", ⟨"🧊 Kylskåp",
          [("Mjölk", ⟨1, "🥛 Mejeri", "2024-03-20", "2024-03-27"⟩)]⟩)]
        ["Kökskylskåp_Mjölk"] (toOrdinal ⟨2024, 3, 28⟩)).1,
      hit.item = "Mjölk" ∧ hit.unit = "Kökskylskåp" ∧
      hit.days = ((toOrdinal ⟨2024, 3, 28⟩ : Int) -
        (toOrdinal ⟨2024, 3, 27⟩ : Int)) ∧ 0 < hit.days :=
  (c1_expired_always_reported
    [("Kökskylskåp", ⟨"🧊 Kylskåp",
      [("Mjölk", ⟨1, "🥛 Mejeri", "2024-03-20", "2024-03-27"⟩)]⟩)]
    ["Kökskylskåp_Mjölk"] (toOrdinal ⟨2024, 3, 28⟩) "Kökskylskåp"
    ⟨"🧊 Kylskåp", [("Mjölk", ⟨1, "🥛 Mejeri", "2024-03-20", "2024-03-27"⟩)]⟩
    "Mjölk" ⟨1, "🥛 Mejeri", "2024-03-20", "2024-03-27"⟩ ⟨2024, 3, 27⟩
    (by decide) (by decide) (by decide) (by decide)).1

/-- C2 witness: Milk expiring in two days with an empty reminders
map. -/
theorem c2_expiring_soon_dedup_witness :
    ("Kökskylskåp" ++ "_" ++ "Mjölk") ∉ ([] : List String) ↔
      ∃ hit ∈ (check_expiring_items
          [("Kökskylskåp", ⟨"🧊 Kylskåp",
            [("Mjölk", ⟨1, "🥛 Mejeri", "2024-03-20", "2024-03-27"⟩)]⟩)]
          [] (toOrdinal ⟨2024, 3, 25⟩)).2,
        hit.key = some ("Kökskylskåp" ++ "_" ++ "Mjölk") :=
  c2_expiring_soon_dedup
    [("Kökskylskåp", ⟨"🧊 Kylskåp",
      [("Mjölk", ⟨1, "🥛 Mejeri", "2024-03-20", "2024-03-27"⟩)]⟩)]
    [] (toOrdinal ⟨2024, 3, 25⟩) "Kökskylskåp"
    ⟨"🧊 Kylskåp", [("Mjölk", ⟨1, "🥛 Mejeri", "2024-03-20", "2024-03-27"⟩)]⟩
    "Mjölk" ⟨1, "🥛 Mejeri", "2024-03-20", "2024-03-27"⟩ ⟨2024, 3, 27⟩
    (by decide) (by decide) (by decide) (by decide) (by decide)

/-- C8 witness: a record whose date string has the wrong shape is
skipped and reported, and the remaining good item is scanned the
same. -/
theorem c8_malformed_date_skipped_witness :
    check_expiring_items
        [("Skafferi", ⟨"🏪 Skafferi",
          [("Bröd", ⟨2, "🍝 Spannmål & Pasta", "2024-01-01", "imorgon"⟩),
           ("Ris", ⟨1, "🍝 Spannmål & Pasta", "2024-01-01", "2024-01-05"⟩)]⟩)]
        [] (toOrdinal ⟨2024, 1, 4⟩)
      = check_expiring_items
          [("Skafferi", ⟨"🏪 Skafferi",
            [("Ris", ⟨1, "🍝 Spannmål & Pasta", "2024-01-01",
              "2024-01-05"⟩)]⟩)]
          [] (toOrdinal ⟨2024, 1, 4⟩)
    ∧ ("Bröd", "Skafferi") ∈
        (scanCore
          [("Skafferi", ⟨"🏪 Skafferi",
            [("Bröd", ⟨2, "🍝 Spannmål & Pasta", "2024-01-01", "imorgon"⟩),
             ("Ris", ⟨1, "🍝 Spannmål & Pasta", "2024-01-01",
               "2024-01-05"⟩)]⟩)]
          [] (toOrdinal ⟨2024, 1, 4⟩)).errors :=
  c8_malformed_date_skipped [] [] "Skafferi" "🏪 Skafferi" []
    [("Ris", ⟨1, "🍝 Spannmål & Pasta", "2024-01-01", "2024-01-05"⟩)]
    "Bröd" ⟨2, "🍝 Spannmål & Pasta", "2024-01-01", "imorgon"⟩
    [] (toOrdinal ⟨2024, 1, 4⟩) (by decide)

end FoodStorage
